import Mathlib

/-!
Verification of the temporal-stabilization and pose-derivation layer of the
IA-face repository against its specification.

The development shallowly embeds, over the real numbers, the code paths the
claims are about:

* the three.js vector/quaternion primitives the trackers invoke
  (`Vector3.lerp`, `Vector3.normalize`, `Quaternion.slerp`, ...), embedded
  from the three.js sources since the repository calls them directly;
* the per-frame anti-jitter filter of `MindARTracker.start`
  (rolling average, dead zone, velocity cap, exponential smoothing);
* the match-count gate of `OpenCVTracker.processFrame` (both the base and
  the stricter variant);
* the sanity-bound rejection of the stricter `OpenCVTracker.update3DObject`;
* the native-resource teardown of `OpenCVTracker.cleanup`;
* the occlusion-mesh construction of `FaceOccluder.updateFace`
  (center-point fan variant).

JavaScript numbers are modelled as real numbers (ℝ), so all statements are
about the ideal real-arithmetic semantics of the code.
-/

open Classical

noncomputable section

/-- Number.EPSILON of JavaScript, used by the three.js slerp fallback test. -/
def numberEpsilon : ℝ := (2 : ℝ) ^ (-52 : ℤ)

/-- Math.atan2 of JavaScript, modelled by the argument of the complex number
x + y i (both agree on all quadrants). -/
def atan2 (y x : ℝ) : ℝ := Complex.arg ⟨x, y⟩

/-- three.js Vector3: a triple of real coordinates. -/
@[ext] structure V3 where
  x : ℝ
  y : ℝ
  z : ℝ

/-- Vector3.add. -/
def V3.add (a b : V3) : V3 := ⟨a.x + b.x, a.y + b.y, a.z + b.z⟩

/-- Vector3.subVectors / Vector3.sub: componentwise difference a - b. -/
def V3.sub (a b : V3) : V3 := ⟨a.x - b.x, a.y - b.y, a.z - b.z⟩

/-- Vector3.multiplyScalar. -/
def V3.multiplyScalar (a : V3) (s : ℝ) : V3 := ⟨a.x * s, a.y * s, a.z * s⟩

/-- Vector3.divideScalar: multiplies by the reciprocal, as in three.js. -/
def V3.divideScalar (a : V3) (s : ℝ) : V3 := a.multiplyScalar (1 / s)

/-- Vector3.lengthSq. -/
def V3.lengthSq (a : V3) : ℝ := a.x * a.x + a.y * a.y + a.z * a.z

/-- Vector3.length. -/
def V3.length (a : V3) : ℝ := Real.sqrt a.lengthSq

/-- Vector3.distanceTo. -/
def V3.distanceTo (a b : V3) : ℝ := (a.sub b).length

/-- Vector3.normalize: three.js divides by `this.length() || 1`, so the zero
vector is left unchanged. -/
def V3.normalize (a : V3) : V3 :=
  a.divideScalar (if a.length = 0 then 1 else a.length)

/-- Vector3.lerp: this.x += (v.x - this.x) * alpha, componentwise. -/
def V3.lerp (a v : V3) (alpha : ℝ) : V3 :=
  ⟨a.x + (v.x - a.x) * alpha, a.y + (v.y - a.y) * alpha, a.z + (v.z - a.z) * alpha⟩

/-- Vector3 zero, the value of `new THREE.Vector3()`. -/
def V3.zero : V3 := ⟨0, 0, 0⟩

/-- three.js Quaternion: four real components. -/
@[ext] structure Quat where
  x : ℝ
  y : ℝ
  z : ℝ
  w : ℝ

/-- Quaternion.dot. -/
def Quat.dot (a b : Quat) : ℝ := a.x * b.x + a.y * b.y + a.z * b.z + a.w * b.w

/-- Quaternion.lengthSq. -/
def Quat.lengthSq (a : Quat) : ℝ := a.x * a.x + a.y * a.y + a.z * a.z + a.w * a.w

/-- Quaternion.length. -/
def Quat.length (a : Quat) : ℝ := Real.sqrt a.lengthSq

/-- Quaternion.normalize: three.js maps the zero quaternion to the identity
(0,0,0,1) and otherwise divides every component by the length. -/
def Quat.normalize (a : Quat) : Quat :=
  if a.length = 0 then ⟨0, 0, 0, 1⟩
  else ⟨a.x * (1 / a.length), a.y * (1 / a.length), a.z * (1 / a.length), a.w * (1 / a.length)⟩

/-- The identity quaternion, the value of `new THREE.Quaternion()`. -/
def Quat.identity : Quat := ⟨0, 0, 0, 1⟩

/-- Quaternion.slerp of three.js, embedded branch for branch: early outs for
t = 0 and t = 1, sign flip onto the shorter arc, degenerate return when the
cosine reaches 1, a renormalized linear fallback when the squared sine is at
most Number.EPSILON, and the trigonometric ratio formula otherwise. -/
def Quat.slerp (q qb : Quat) (t : ℝ) : Quat :=
  if t = 0 then q
  else if t = 1 then qb
  else
    let c := q.dot qb
    let q2 : Quat := if c < 0 then ⟨-qb.x, -qb.y, -qb.z, -qb.w⟩ else qb
    let cosHalfTheta := if c < 0 then -c else c
    if 1 ≤ cosHalfTheta then q
    else
      let sqrSinHalfTheta := 1 - cosHalfTheta * cosHalfTheta
      if sqrSinHalfTheta ≤ numberEpsilon then
        Quat.normalize ⟨(1 - t) * q.x + t * q2.x, (1 - t) * q.y + t * q2.y,
          (1 - t) * q.z + t * q2.z, (1 - t) * q.w + t * q2.w⟩
      else
        let sinHalfTheta := Real.sqrt sqrSinHalfTheta
        let halfTheta := atan2 sinHalfTheta cosHalfTheta
        let rA := Real.sin ((1 - t) * halfTheta) / sinHalfTheta
        let rB := Real.sin (t * halfTheta) / sinHalfTheta
        ⟨q.x * rA + q2.x * rB, q.y * rA + q2.y * rB, q.z * rA + q2.z * rB,
          q.w * rA + q2.w * rB⟩

namespace MindAR

/-- historySize of MindARTracker: average over 5 frames. -/
def historySize : ℕ := 5

/-- smoothingFactor of MindARTracker. -/
def smoothingFactor : ℝ := 0.15

/-- movementThreshold of MindARTracker: the dead-zone radius. -/
def movementThreshold : ℝ := 0.001

/-- maxVelocity of MindARTracker: the velocity cap. -/
def maxVelocity : ℝ := 0.1

/-- The mutable per-tracker filter fields of MindARTracker that the
animation-loop body reads and writes. -/
structure FilterState where
  positionHistory : List V3
  quaternionHistory : List Quat
  smoothedPosition : V3
  smoothedQuaternion : Quat
  lastPosition : V3
  velocity : V3

/-- The history-eviction step: after a push, `shift()` drops the oldest
sample when the history length exceeds historySize. -/
def evictIfOver {α : Type} (l : List α) : List α :=
  if historySize < l.length then l.tail else l

/-- The rolling-average position: sum every history entry into a fresh zero
vector, then divide by the history length. -/
def avgPosition (hist : List V3) : V3 :=
  (hist.foldl V3.add V3.zero).divideScalar hist.length

/-- The quaternion-averaging loop of MindARTracker.start:
`for (let i = 1; i < length; i++) avg.slerp(history[i], 1 / (i + 1))`. -/
def avgQuatLoop (hist : List Quat) (i : ℕ) (acc : Quat) : Quat :=
  if _h : i < hist.length then
    avgQuatLoop hist (i + 1) (acc.slerp (hist.getD i Quat.identity) (1 / ((i : ℝ) + 1)))
  else acc
termination_by hist.length - i

/-- The rolling-average orientation: clone the oldest history entry and run
the slerp loop from index 1. -/
def avgQuaternion (hist : List Quat) : Quat :=
  avgQuatLoop hist 1 (hist.headD Quat.identity)

/-- One visible-anchor iteration of the animation-loop body of
MindARTracker.start: push the raw pose into both histories (evicting the
oldest entries past capacity, keyed on the position-history length as in the
source), compute the rolling averages, suppress the frame when the distance
from the previous stabilized position to the average is below the dead-zone
threshold, otherwise cap the velocity vector and exponentially approach the
averages. -/
def frameStep (st : FilterState) (rawP : V3) (rawQ : Quat) : FilterState :=
  let posH := st.positionHistory ++ [rawP]
  let quatH := st.quaternionHistory ++ [rawQ]
  let posH2 := evictIfOver posH
  let quatH2 := if historySize < posH.length then quatH.tail else quatH
  let avgP := avgPosition posH2
  let avgQ := avgQuaternion quatH2
  if V3.distanceTo st.smoothedPosition avgP < movementThreshold then
    { st with positionHistory := posH2, quaternionHistory := quatH2 }
  else
    let vel := V3.sub avgP st.lastPosition
    let vel2 := if maxVelocity < vel.length then (vel.normalize).multiplyScalar maxVelocity else vel
    { positionHistory := posH2
      quaternionHistory := quatH2
      smoothedPosition := V3.lerp st.smoothedPosition avgP smoothingFactor
      smoothedQuaternion := Quat.slerp st.smoothedQuaternion avgQ smoothingFactor
      lastPosition := avgP
      velocity := vel2 }

/-- The filter state of a freshly started tracker: empty histories, zero
lastPosition and velocity (`new THREE.Vector3()`), and the smoothed pose
seeded from the anchor group when the model finishes loading. -/
def initialState (s0 : V3) (q0 : Quat) : FilterState :=
  { positionHistory := []
    quaternionHistory := []
    smoothedPosition := s0
    smoothedQuaternion := q0
    lastPosition := V3.zero
    velocity := V3.zero }

/-- Iterated frame updates fed by an arbitrary per-frame raw sample stream. -/
def runSeq (st0 : FilterState) (ps : ℕ → V3) (qs : ℕ → Quat) : ℕ → FilterState
  | 0 => st0
  | n + 1 => frameStep (runSeq st0 ps qs n) (ps n) (qs n)

/-- The order-dependent sequential slerp fold described by the spec: start
from the oldest quaternion, and interpolate the accumulator toward the
quaternion at (absolute, 0-based) index i with weight 1/(i+1). -/
def specSequentialSlerpAverage (hist : List Quat) : Quat :=
  match hist with
  | [] => Quat.identity
  | q0 :: rest =>
      (List.enumFrom 1 rest).foldl (fun acc p => acc.slerp p.2 (1 / ((p.1 : ℝ) + 1))) q0

end MindAR

namespace OpenCV

/-- A 3x3 homography matrix, entry hrc sitting at row r, column c. -/
structure Homography where
  h00 : ℝ
  h01 : ℝ
  h02 : ℝ
  h10 : ℝ
  h11 : ℝ
  h12 : ℝ
  h20 : ℝ
  h21 : ℝ
  h22 : ℝ

/-- The per-tracker geometry context read by the stricter
OpenCVTracker.update3DObject: reference-image size, video-canvas size and
the Three.js camera parameters. -/
structure TrackerCtx where
  refCols : ℝ
  refRows : ℝ
  canvasW : ℝ
  canvasH : ℝ
  aspect : ℝ
  fov : ℝ
  camZ : ℝ

/-- The pose state update3DObject reads and writes: the smoothed channels
plus the model transform they are copied onto. -/
structure Pose3D where
  smoothedPosition : V3
  smoothedRotZ : ℝ
  smoothedScale : ℝ
  modelPosition : V3
  modelRotZ : ℝ
  modelScale : ℝ
  modelVisible : Bool

/-- smoothingFactor of the stricter OpenCVTracker variant. -/
def cvSmoothingFactor : ℝ := 0.05

/-- cv.perspectiveTransform applied to the reference-image center point
(cols/2, rows/2): the standard projective image of the point under the
homography. -/
def perspectiveCenter (ctx : TrackerCtx) (h : Homography) : ℝ × ℝ :=
  let cx := ctx.refCols / 2
  let cy := ctx.refRows / 2
  let d := h.h20 * cx + h.h21 * cy + h.h22
  ((h.h00 * cx + h.h01 * cy + h.h02) / d, (h.h10 * cx + h.h11 * cy + h.h12) / d)

/-- The derived homography scale: average of the norms of the two columns of
the upper-left 2x2 block. -/
def homographyScale (h : Homography) : ℝ :=
  (Real.sqrt (h.h00 ^ 2 + h.h10 ^ 2) + Real.sqrt (h.h01 ^ 2 + h.h11 ^ 2)) / 2

/-- The frame-bounds sanity test of the stricter update3DObject: the
transformed center point lies beyond one full frame dimension outside the
visible canvas. -/
def centerOutOfBounds (ctx : TrackerCtx) (h : Homography) : Prop :=
  (perspectiveCenter ctx h).1 < -ctx.canvasW ∨
    ctx.canvasW * 2 < (perspectiveCenter ctx h).1 ∨
    (perspectiveCenter ctx h).2 < -ctx.canvasH ∨
    ctx.canvasH * 2 < (perspectiveCenter ctx h).2

/-- The scale sanity test of the stricter update3DObject. -/
def scaleOutOfBounds (h : Homography) : Prop :=
  homographyScale h < 0.1 ∨ 5.0 < homographyScale h

/-- The stricter OpenCVTracker.update3DObject: perspective-transform the
reference center, reject out-of-bounds positions, derive and
sanity-check the scale, then derive the planar rotation, map to scene
coordinates through the FOV-derived visible area, smooth every channel and
copy onto the model. Early returns leave the whole pose state unchanged. -/
def update3DObject (ctx : TrackerCtx) (h : Homography) (st : Pose3D) : Pose3D :=
  let x := (perspectiveCenter ctx h).1
  let y := (perspectiveCenter ctx h).2
  if x < -ctx.canvasW ∨ ctx.canvasW * 2 < x ∨ y < -ctx.canvasH ∨ ctx.canvasH * 2 < y then st
  else
    let scale := homographyScale h
    if scale < 0.1 ∨ 5.0 < scale then st
    else
      let rotation := atan2 h.h10 h.h00
      let normalizedX := (x / ctx.canvasW) * 2 - 1
      let normalizedY := -((y / ctx.canvasH) * 2 - 1)
      let visibleHeightAtZ0 := 2 * Real.tan (ctx.fov * Real.pi / 180 / 2) * ctx.camZ
      let visibleWidthAtZ0 := visibleHeightAtZ0 * ctx.aspect
      let targetPosition : V3 := ⟨normalizedX * (visibleWidthAtZ0 / 2),
        normalizedY * (visibleHeightAtZ0 / 2), 0⟩
      let targetRotZ := -rotation
      let targetScale := scale * 0.5
      let sp := V3.lerp st.smoothedPosition targetPosition cvSmoothingFactor
      let sr := st.smoothedRotZ + (targetRotZ - st.smoothedRotZ) * cvSmoothingFactor
      let ss := st.smoothedScale + (targetScale - st.smoothedScale) * cvSmoothingFactor
      { smoothedPosition := sp
        smoothedRotZ := sr
        smoothedScale := ss
        modelPosition := sp
        modelRotZ := sr
        modelScale := ss
        modelVisible := true }

end OpenCV

namespace FaceOccluder

/-- A MediaPipe face landmark: normalized coordinates. -/
structure Landmark where
  x : ℝ
  y : ℝ
  z : ℝ

/-- The camera fields read by FaceOccluder.updateFace. -/
structure Cam where
  fov : ℝ
  aspect : ℝ

/-- Face oval landmark indices (jawline and face contour). -/
def faceOvalIndices : List ℕ :=
  [10, 338, 297, 332, 284, 251, 389, 356, 454, 323, 361, 288,
   397, 365, 379, 378, 400, 377, 152, 148, 176, 149, 150, 136,
   172, 58, 132, 93, 234, 127, 162, 21, 54, 103, 67, 109]

/-- Forehead area indices. -/
def foreheadIndices : List ℕ := [10, 338, 297, 332, 284, 251, 389, 356, 454, 323, 361, 288]

/-- Nose bridge indices. -/
def noseIndices : List ℕ := [6, 197, 195, 5, 4]

/-- The combined importantIndices array of the center-fan FaceOccluder
variant: face oval, forehead, nose, eye regions, mouth region and cheeks. -/
def importantIndices : List ℕ :=
  faceOvalIndices ++ foreheadIndices ++ noseIndices ++
  [33, 133, 160, 159, 158, 157, 173, 246, 161, 160, 159, 158,
   362, 263, 387, 386, 385, 384, 398, 466, 388, 387, 386, 385,
   61, 185, 40, 39, 37, 0, 267, 269, 270, 409, 291,
   234, 93, 132, 58, 172, 136, 150, 149, 176, 148, 152,
   454, 323, 361, 288, 397, 365, 379, 378, 400, 377]

/-- JavaScript Set-based deduplication: keep the first occurrence of every
element, preserving insertion order. -/
def dedupFirst (l : List ℕ) : List ℕ :=
  l.foldl (fun acc i => if i ∈ acc then acc else acc ++ [i]) []

/-- uniqueIndices: the deduplicated importantIndices. -/
def uniqueIndices : List ℕ := dedupFirst importantIndices

/-- The forehead-extension indices (pushed upward by 1.2). -/
def foreheadTopIndices : List ℕ := [10, 338, 297, 332, 284, 251, 389, 356, 454]

/-- The chin/jawline indices (pushed downward by 6.0). -/
def chinIndices : List ℕ :=
  [152, 148, 176, 149, 150, 136, 172, 58, 132, 93, 234, 127, 162, 21, 54, 103, 67, 109,
   365, 379, 378, 400, 377, 454, 323, 361, 288, 397]

/-- Right-shoulder widening indices. -/
def rightSideIndices : List ℕ := [234, 127, 162, 21, 54, 103, 67, 109]

/-- Left-shoulder widening indices. -/
def leftSideIndices : List ℕ := [454, 323, 361, 288, 397, 365, 379, 378, 400, 377]

/-- Projection of one landmark into scene space, with the forehead, chin and
shoulder policy offsets of the center-fan variant, pinned at depth z = 0. -/
def projectVertex (cam : Cam) (landmarks : List Landmark) (idx : ℕ) : V3 :=
  let fovRad := cam.fov * (Real.pi / 180)
  let heightAtZero := 2 * Real.tan (fovRad / 2) * 5
  let widthAtZero := heightAtZero * cam.aspect
  let lm := landmarks.getD idx ⟨0, 0, 0⟩
  let x0 := -(lm.x - 0.5) * widthAtZero
  let y0 := -(lm.y - 0.5) * heightAtZero
  let y1 := if idx ∈ foreheadTopIndices then y0 + 1.2 else y0
  let y2 := if idx ∈ chinIndices then y1 - 6.0 else y1
  let x1 :=
    if idx ∈ chinIndices then
      if idx ∈ rightSideIndices then x0 + 1.5
      else if idx ∈ leftSideIndices then x0 - 1.5
      else x0
    else x0
  ⟨x1, y2, 0⟩

/-- The projected boundary vertices: every uniqueIndices entry that is in
range of the landmark list, projected in order. -/
def boundaryVertices (cam : Cam) (landmarks : List Landmark) : List V3 :=
  (uniqueIndices.filter (fun idx => idx < landmarks.length)).map
    (projectVertex cam landmarks)

/-- The center point of updateFace: componentwise sum of all vertices
divided by the vertex count. -/
def centroid (verts : List V3) : V3 :=
  ⟨(verts.map V3.x).sum / verts.length,
   (verts.map V3.y).sum / verts.length,
   (verts.map V3.z).sum / verts.length⟩

/-- The vertex and index buffers written into the face geometry. -/
structure FaceGeom where
  vertices : List V3
  indices : List ℕ

/-- FaceOccluder.updateFace of the center-fan variant: on empty input return
without rebuilding; otherwise project the boundary vertices, append their
centroid as the last vertex, and push one (center, i, (i+1) mod count)
triangle per boundary vertex into the flat index buffer. -/
def updateFace (cam : Cam) (landmarks : List Landmark) : Option FaceGeom :=
  if landmarks.isEmpty then none
  else
    let verts := boundaryVertices cam landmarks
    let count := verts.length
    let c := centroid verts
    some { vertices := verts ++ [c]
           indices := (List.range count).foldl
             (fun acc i => acc ++ [count, i, (i + 1) % count]) [] }

/-- The center-point fan triangulation described by the spec: with n
boundary vertices and the centroid appended at index n, the triangles
(n, i, (i+1) mod n) for i = 0 .. n-1. -/
def specCenterFanTriangles (n : ℕ) : List (ℕ × ℕ × ℕ) :=
  (List.range n).map (fun i => (n, i, (i + 1) % n))

/-- Flattening of a triangle list into a flat index buffer. -/
def flatTriples (ts : List (ℕ × ℕ × ℕ)) : List ℕ :=
  ts.foldl (fun acc t => acc ++ [t.1, t.2.1, t.2.2]) []

end FaceOccluder

end

namespace OpenCV

/-- A cv.DMatch record: query index, train index and descriptor distance.
Distances are modelled as rationals; processFrame only compares them. -/
structure DMatch where
  queryIdx : ℕ
  trainIdx : ℕ
  distance : ℚ
deriving DecidableEq

/-- The good-match distance threshold of the base processFrame variant. -/
def matchThresholdBase : ℚ := 50

/-- The stricter good-match distance threshold. -/
def matchThresholdStrict : ℚ := 40

/-- Minimum good matches for homography in the base variant. -/
def minMatchesBase : ℕ := 4

/-- Minimum good matches for stable homography in the stricter variant. -/
def minMatchesStrict : ℕ := 8

/-- The observable outcome of one processFrame matching stage: the tracking
flag written to the state, and whether update3DObject was invoked. -/
structure FrameOutcome where
  isTracking : Bool
  updateInvoked : Bool
deriving DecidableEq

/-- The matching stage of the base OpenCVTracker.processFrame, entered once
both descriptor sets are non-empty: filter matches below the distance
threshold; with at least minMatchesBase good matches set isTracking, compute
the homography and invoke update3DObject, otherwise clear isTracking and
skip the pose update. -/
def processFrameBase (matchList : List DMatch) : FrameOutcome :=
  let goodMatches := matchList.filter (fun m => m.distance < matchThresholdBase)
  if minMatchesBase ≤ goodMatches.length then
    { isTracking := true, updateInvoked := true }
  else
    { isTracking := false, updateInvoked := false }

/-- The matching stage of the stricter OpenCVTracker.processFrame: stricter
threshold, at least minMatchesStrict good matches required, and the pose
update additionally skipped when findHomography returns an empty matrix. -/
def processFrameStrict (matchList : List DMatch) (homographyEmpty : Bool) : FrameOutcome :=
  let goodMatches := matchList.filter (fun m => m.distance < matchThresholdStrict)
  if minMatchesStrict ≤ goodMatches.length then
    { isTracking := true, updateInvoked := !homographyEmpty }
  else
    { isTracking := false, updateInvoked := false }

/-- A JavaScript field holding an OpenCV.js native-backed object: either
null, or a reference to a live native object, or a reference to an object
whose native memory has already been released. -/
inductive NativeRef where
  | null : NativeRef
  | live : NativeRef
  | freed : NativeRef
deriving DecidableEq

/-- Errors of the native-resource model. -/
inductive CVError where
  | doubleDelete : CVError
deriving DecidableEq

/-- One guarded release step of cleanup, `if (this.f) this.f.delete()`: a
null field is skipped; deleting a live object releases it, while the field
keeps referencing the now-freed object; calling delete() on an
already-freed native object is the double-release error condition the spec
names (OpenCV.js embind throws on it), and cleanup has no handler for it. -/
def releaseField (r : NativeRef) : Except CVError NativeRef :=
  match r with
  | .null => .ok .null
  | .live => .ok .freed
  | .freed => .error .doubleDelete

/-- The four native-backed fields OpenCVTracker.cleanup releases. -/
structure CVResources where
  referenceImage : NativeRef
  referenceDescriptors : NativeRef
  referenceKeypoints : NativeRef
  homography : NativeRef
deriving DecidableEq

/-- OpenCVTracker.cleanup: release the four native-backed fields in source
order. The fields are never set back to null afterwards. -/
def cleanup (st : CVResources) : Except CVError CVResources := do
  let ri ← releaseField st.referenceImage
  let rd ← releaseField st.referenceDescriptors
  let rk ← releaseField st.referenceKeypoints
  let hm ← releaseField st.homography
  pure { referenceImage := ri
         referenceDescriptors := rd
         referenceKeypoints := rk
         homography := hm }

/-- The resource state of a fully initialized, tracking OpenCVTracker. -/
def initializedResources : CVResources :=
  { referenceImage := .live
    referenceDescriptors := .live
    referenceKeypoints := .live
    homography := .live }

/-- The resource state after one successful teardown: every field still
references its (now freed) native object. -/
def freedResources : CVResources :=
  { referenceImage := .freed
    referenceDescriptors := .freed
    referenceKeypoints := .freed
    homography := .freed }

end OpenCV

theorem V3.lengthSq_nonneg (a : V3) : 0 ≤ a.lengthSq := by
  unfold V3.lengthSq
  nlinarith [mul_self_nonneg a.x, mul_self_nonneg a.y, mul_self_nonneg a.z]

theorem V3.length_nonneg (a : V3) : 0 ≤ a.length :=
  Real.sqrt_nonneg _

theorem V3.length_smul (c : ℝ) (v : V3) :
    V3.length ⟨c * v.x, c * v.y, c * v.z⟩ = |c| * v.length := by
  unfold V3.length V3.lengthSq
  rw [show c * v.x * (c * v.x) + c * v.y * (c * v.y) + c * v.z * (c * v.z)
      = c ^ 2 * (v.x * v.x + v.y * v.y + v.z * v.z) by ring]
  rw [Real.sqrt_mul (sq_nonneg c), Real.sqrt_sq_eq_abs]

theorem V3.length_mk_x (a : ℝ) : V3.length ⟨a, 0, 0⟩ = |a| := by
  unfold V3.length V3.lengthSq
  rw [show a * a + 0 * 0 + 0 * 0 = a * a by ring, Real.sqrt_mul_self_eq_abs]

theorem V3.distanceTo_self (a : V3) : V3.distanceTo a a = 0 := by
  unfold V3.distanceTo V3.sub V3.length V3.lengthSq
  simp

theorem V3.distanceTo_lerp (s t : V3) (f : ℝ) :
    V3.distanceTo (V3.lerp s t f) t = |1 - f| * V3.distanceTo s t := by
  unfold V3.distanceTo V3.lerp V3.sub
  rw [show (⟨s.x + (t.x - s.x) * f - t.x, s.y + (t.y - s.y) * f - t.y,
      s.z + (t.z - s.z) * f - t.z⟩ : V3)
      = ⟨(1 - f) * (s.x - t.x), (1 - f) * (s.y - t.y), (1 - f) * (s.z - t.z)⟩ by
        ext <;> ring]
  exact V3.length_smul (1 - f) ⟨s.x - t.x, s.y - t.y, s.z - t.z⟩

/-- C9: tracker teardown is claimed idempotent, never propagating and
releasing each native resource at most once; the code instead re-invokes
delete() on every still-referenced, already-freed native object on a second
cleanup call (the fields are never cleared), so the second teardown performs
a double release that escapes cleanup. This theorem evaluates cleanup at the
failing input: the first call succeeds and frees all four resources, and the
very next call hits the double-delete error condition. -/
theorem C9_cleanup_double_release :
    OpenCV.cleanup OpenCV.initializedResources = Except.ok OpenCV.freedResources ∧
    OpenCV.cleanup OpenCV.freedResources = Except.error OpenCV.CVError.doubleDelete := by
  exact ⟨rfl, rfl⟩

/-- C5: per variant, whenever that variant's number of good matches is
strictly below its own minimum (4 in the base variant at threshold 50, 8 in
the stricter variant at threshold 40), its processFrame clears the tracking
flag and does not invoke update3DObject, so no transform is emitted. The two
implications are independent: each variant's hypothesis governs only that
variant's conclusion. -/
theorem C5_insufficient_matches_no_update (matchList : List OpenCV.DMatch)
    (homographyEmpty : Bool) :
    ((matchList.filter
        (fun m => m.distance < OpenCV.matchThresholdBase)).length < OpenCV.minMatchesBase →
      OpenCV.processFrameBase matchList
        = { isTracking := false, updateInvoked := false }) ∧
    ((matchList.filter
        (fun m => m.distance < OpenCV.matchThresholdStrict)).length < OpenCV.minMatchesStrict →
      OpenCV.processFrameStrict matchList homographyEmpty
        = { isTracking := false, updateInvoked := false }) := by
  constructor
  · intro hBase
    unfold OpenCV.processFrameBase
    rw [if_neg (by omega)]
  · intro hStrict
    unfold OpenCV.processFrameStrict
    rw [if_neg (by omega)]

/-- C5 witness: three good matches are below the base minimum of 4, and a
separate frame with five good matches under the strict threshold (enough for
the base variant's 4, but below the strict minimum of 8) exercises the
stricter variant's distinctive region: both frames end untracked with no
pose update. -/
theorem C5_insufficient_matches_no_update_witness :
    OpenCV.processFrameBase [⟨0, 0, 10⟩, ⟨1, 1, 20⟩, ⟨2, 2, 30⟩]
      = { isTracking := false, updateInvoked := false } ∧
    OpenCV.processFrameStrict
        [⟨0, 0, 10⟩, ⟨1, 1, 20⟩, ⟨2, 2, 30⟩, ⟨3, 3, 35⟩, ⟨4, 4, 38⟩] true
      = { isTracking := false, updateInvoked := false } :=
  ⟨(C5_insufficient_matches_no_update [⟨0, 0, 10⟩, ⟨1, 1, 20⟩, ⟨2, 2, 30⟩] true).1
      (by decide),
   (C5_insufficient_matches_no_update
      [⟨0, 0, 10⟩, ⟨1, 1, 20⟩, ⟨2, 2, 30⟩, ⟨3, 3, 35⟩, ⟨4, 4, 38⟩] true).2
      (by decide)⟩

/-- C4: any homography whose derived scale falls outside the sane band
[0.1, 5.0], or whose transformed reference-center point falls outside the
accepted frame-bounds margin, makes the stricter update3DObject return with
the whole pose state (smoothed channels and model transform) unchanged. -/
theorem C4_degenerate_homography_rejected (ctx : OpenCV.TrackerCtx)
    (h : OpenCV.Homography) (st : OpenCV.Pose3D)
    (hrej : OpenCV.scaleOutOfBounds h ∨ OpenCV.centerOutOfBounds ctx h) :
    OpenCV.update3DObject ctx h st = st := by
  unfold OpenCV.update3DObject
  unfold OpenCV.scaleOutOfBounds OpenCV.centerOutOfBounds at hrej
  dsimp only
  split_ifs with h1 h2
  · rfl
  · rfl
  · rcases hrej with hs | hc
    · exact absurd hs h2
    · exact absurd hc h1

/-- C4 witness: a synthetic homography with derived scale 10 (outside
[0.1, 5.0]) is rejected and the pose state is held unchanged. -/
theorem C4_degenerate_homography_rejected_witness :
    (OpenCV.scaleOutOfBounds ⟨10, 0, 0, 0, 10, 0, 0, 0, 1⟩ ∨
      OpenCV.centerOutOfBounds ⟨200, 100, 640, 480, 4 / 3, 60, 5⟩
        ⟨10, 0, 0, 0, 10, 0, 0, 0, 1⟩) ∧
    OpenCV.update3DObject ⟨200, 100, 640, 480, 4 / 3, 60, 5⟩ ⟨10, 0, 0, 0, 10, 0, 0, 0, 1⟩
      ⟨V3.zero, 0, 1, V3.zero, 0, 1, false⟩ = ⟨V3.zero, 0, 1, V3.zero, 0, 1, false⟩ := by
  have hscale : OpenCV.homographyScale ⟨10, 0, 0, 0, 10, 0, 0, 0, 1⟩ = 10 := by
    unfold OpenCV.homographyScale
    rw [show (10 : ℝ) ^ 2 + 0 ^ 2 = 10 ^ 2 by norm_num,
      show (0 : ℝ) ^ 2 + 10 ^ 2 = 10 ^ 2 by norm_num,
      Real.sqrt_sq (by norm_num : (0 : ℝ) ≤ 10)]
    norm_num
  have hout : OpenCV.scaleOutOfBounds ⟨10, 0, 0, 0, 10, 0, 0, 0, 1⟩ := by
    unfold OpenCV.scaleOutOfBounds
    rw [hscale]
    right
    norm_num
  exact ⟨Or.inl hout, C4_degenerate_homography_rejected _ _ _ (Or.inl hout)⟩

/-- C2 amended: on every frame where the distance from the previous
stabilized position to the new rolling-average position is strictly below
movementThreshold, the update is discarded and the stabilized pose
(position and quaternion) is left bit-identical. -/
theorem C2_dead_zone_holds_pose (st : MindAR.FilterState) (rawP : V3) (rawQ : Quat)
    (hgate : V3.distanceTo st.smoothedPosition
      (MindAR.avgPosition (MindAR.evictIfOver (st.positionHistory ++ [rawP])))
      < MindAR.movementThreshold) :
    (MindAR.frameStep st rawP rawQ).smoothedPosition = st.smoothedPosition ∧
    (MindAR.frameStep st rawP rawQ).smoothedQuaternion = st.smoothedQuaternion := by
  unfold MindAR.frameStep MindAR.evictIfOver
  unfold MindAR.evictIfOver at hgate
  dsimp only
  rw [if_pos hgate]
  exact ⟨rfl, rfl⟩

/-- C2 witness: with a stabilized position already sitting on the incoming
average, the dead zone fires and the pose is re-emitted unchanged. -/
theorem C2_dead_zone_holds_pose_witness :
    V3.distanceTo (⟨1, 0, 0⟩ : V3)
      (MindAR.avgPosition (MindAR.evictIfOver (([] : List V3) ++ [⟨1, 0, 0⟩])))
      < MindAR.movementThreshold ∧
    (MindAR.frameStep (MindAR.initialState ⟨1, 0, 0⟩ Quat.identity) ⟨1, 0, 0⟩
      Quat.identity).smoothedPosition = (⟨1, 0, 0⟩ : V3) := by
  have havg : MindAR.avgPosition (MindAR.evictIfOver (([] : List V3) ++ [⟨1, 0, 0⟩]))
      = (⟨1, 0, 0⟩ : V3) := by
    simp [MindAR.avgPosition, MindAR.evictIfOver, MindAR.historySize, V3.add, V3.zero,
      V3.divideScalar, V3.multiplyScalar]
  have hgate : V3.distanceTo (⟨1, 0, 0⟩ : V3)
      (MindAR.avgPosition (MindAR.evictIfOver (([] : List V3) ++ [⟨1, 0, 0⟩])))
      < MindAR.movementThreshold := by
    rw [havg, V3.distanceTo_self]
    norm_num [MindAR.movementThreshold]
  exact ⟨hgate, (C2_dead_zone_holds_pose (MindAR.initialState ⟨1, 0, 0⟩ Quat.identity)
    ⟨1, 0, 0⟩ Quat.identity hgate).1⟩

/-- C2 counterexample: an incoming raw sample identical to the previous raw
sample (raw delta 0, strictly below movementThreshold) nevertheless changes
the stabilized position, because the gate tests the distance between the
previous stabilized position and the rolling average, not the raw delta:
here the stabilized position still lags at the origin while the history
already sits at (1,0,0). -/
theorem C2_raw_delta_cex :
    V3.distanceTo (⟨1, 0, 0⟩ : V3) (⟨1, 0, 0⟩ : V3) < MindAR.movementThreshold ∧
    (MindAR.frameStep
        ⟨[⟨1, 0, 0⟩], [Quat.identity], V3.zero, Quat.identity, ⟨1, 0, 0⟩, V3.zero⟩
        ⟨1, 0, 0⟩ Quat.identity).smoothedPosition
      ≠ (⟨[⟨1, 0, 0⟩], [Quat.identity], V3.zero, Quat.identity, ⟨1, 0, 0⟩,
          V3.zero⟩ : MindAR.FilterState).smoothedPosition := by
  constructor
  · rw [V3.distanceTo_self]
    norm_num [MindAR.movementThreshold]
  · have havg : MindAR.avgPosition (MindAR.evictIfOver ([⟨1, 0, 0⟩] ++ [(⟨1, 0, 0⟩ : V3)]))
        = (⟨1, 0, 0⟩ : V3) := by
      simp [MindAR.avgPosition, MindAR.evictIfOver, MindAR.historySize, V3.add, V3.zero,
        V3.divideScalar, V3.multiplyScalar]
      norm_num
    have hdist : V3.distanceTo V3.zero (⟨1, 0, 0⟩ : V3) = 1 := by
      unfold V3.distanceTo V3.sub V3.zero
      rw [show (⟨(0 : ℝ) - 1, (0 : ℝ) - 0, (0 : ℝ) - 0⟩ : V3) = ⟨-1, 0, 0⟩ by norm_num,
        V3.length_mk_x]
      norm_num
    have hgate : ¬ (V3.distanceTo V3.zero (⟨1, 0, 0⟩ : V3) < MindAR.movementThreshold) := by
      rw [hdist]
      norm_num [MindAR.movementThreshold]
    unfold MindAR.frameStep
    dsimp only
    rw [havg, if_neg hgate]
    simp [V3.lerp, V3.zero, MindAR.smoothingFactor, V3.mk.injEq]
    norm_num

theorem MindAR.mem_evictIfOver_append {α : Type} (l : List α) (a : α) :
    a ∈ MindAR.evictIfOver (l ++ [a]) := by
  unfold MindAR.evictIfOver
  split_ifs with h
  · cases l with
    | nil => simp [MindAR.historySize] at h
    | cons b bs => simp
  · simp

/-- C10: on a dead-zone-suppressed frame the sample histories have already
been mutated: the raw sample was appended to both histories (with
oldest-eviction) before the gate fired, and it stays in the position
history, while the stabilized pose is re-emitted unchanged. -/
theorem C10_suppressed_frame_mutates_history (st : MindAR.FilterState) (rawP : V3)
    (rawQ : Quat)
    (hlen : st.quaternionHistory.length = st.positionHistory.length)
    (hgate : V3.distanceTo st.smoothedPosition
      (MindAR.avgPosition (MindAR.evictIfOver (st.positionHistory ++ [rawP])))
      < MindAR.movementThreshold) :
    (MindAR.frameStep st rawP rawQ).positionHistory
      = MindAR.evictIfOver (st.positionHistory ++ [rawP]) ∧
    (MindAR.frameStep st rawP rawQ).quaternionHistory
      = MindAR.evictIfOver (st.quaternionHistory ++ [rawQ]) ∧
    rawP ∈ (MindAR.frameStep st rawP rawQ).positionHistory ∧
    (MindAR.frameStep st rawP rawQ).smoothedPosition = st.smoothedPosition ∧
    (MindAR.frameStep st rawP rawQ).smoothedQuaternion = st.smoothedQuaternion := by
  have hstep : MindAR.frameStep st rawP rawQ =
      { st with positionHistory := MindAR.evictIfOver (st.positionHistory ++ [rawP])
                quaternionHistory :=
                  if MindAR.historySize < (st.positionHistory ++ [rawP]).length then
                    (st.quaternionHistory ++ [rawQ]).tail
                  else st.quaternionHistory ++ [rawQ] } := by
    unfold MindAR.frameStep
    dsimp only
    rw [if_pos hgate]
  rw [hstep]
  have hq : (if MindAR.historySize < (st.positionHistory ++ [rawP]).length then
        (st.quaternionHistory ++ [rawQ]).tail
      else st.quaternionHistory ++ [rawQ])
      = MindAR.evictIfOver (st.quaternionHistory ++ [rawQ]) := by
    unfold MindAR.evictIfOver
    simp only [List.length_append, List.length_singleton, hlen]
  exact ⟨rfl, hq, MindAR.mem_evictIfOver_append st.positionHistory rawP, rfl, rfl⟩

/-- C10 witness: a suppressed frame at the origin still appends the raw
sample to the histories. -/
theorem C10_suppressed_frame_mutates_history_witness :
    (MindAR.frameStep ⟨[V3.zero], [Quat.identity], V3.zero, Quat.identity, V3.zero, V3.zero⟩
        V3.zero Quat.identity).positionHistory
      = MindAR.evictIfOver ([V3.zero] ++ [V3.zero]) ∧
    V3.zero ∈ (MindAR.frameStep
        ⟨[V3.zero], [Quat.identity], V3.zero, Quat.identity, V3.zero, V3.zero⟩
        V3.zero Quat.identity).positionHistory := by
  have havg : MindAR.avgPosition (MindAR.evictIfOver ([V3.zero] ++ [V3.zero])) = V3.zero := by
    simp [MindAR.avgPosition, MindAR.evictIfOver, MindAR.historySize, V3.add, V3.zero,
      V3.divideScalar, V3.multiplyScalar]
  have hgate : V3.distanceTo V3.zero
      (MindAR.avgPosition (MindAR.evictIfOver ([V3.zero] ++ [V3.zero])))
      < MindAR.movementThreshold := by
    rw [havg, V3.distanceTo_self]
    norm_num [MindAR.movementThreshold]
  have h := C10_suppressed_frame_mutates_history
    ⟨[V3.zero], [Quat.identity], V3.zero, Quat.identity, V3.zero, V3.zero⟩
    V3.zero Quat.identity (by simp) hgate
  exact ⟨h.1, h.2.2.1⟩

theorem FaceOccluder.flatTriples_specCenterFan (n : ℕ) :
    FaceOccluder.flatTriples (FaceOccluder.specCenterFanTriangles n)
      = (List.range n).foldl (fun acc i => acc ++ [n, i, (i + 1) % n]) [] := by
  unfold FaceOccluder.flatTriples FaceOccluder.specCenterFanTriangles
  rw [List.foldl_map]

/-- C3: for every non-empty landmark input, the center-fan FaceOccluder
variant emits the boundary vertices with their centroid appended as the last
vertex (so index n, with n boundary vertices), and its flat index buffer is
exactly the flattening of the n center-fan triangles (n, i, (i+1) mod n),
one per consecutive boundary-point pair. -/
theorem C3_center_fan_triangulation (cam : FaceOccluder.Cam)
    (landmarks : List FaceOccluder.Landmark) (hne : landmarks ≠ []) :
    FaceOccluder.updateFace cam landmarks = some
      { vertices := FaceOccluder.boundaryVertices cam landmarks ++
          [FaceOccluder.centroid (FaceOccluder.boundaryVertices cam landmarks)]
        indices := FaceOccluder.flatTriples (FaceOccluder.specCenterFanTriangles
          (FaceOccluder.boundaryVertices cam landmarks).length) } ∧
    (FaceOccluder.specCenterFanTriangles
        (FaceOccluder.boundaryVertices cam landmarks).length).length
      = (FaceOccluder.boundaryVertices cam landmarks).length ∧
    (FaceOccluder.boundaryVertices cam landmarks ++
        [FaceOccluder.centroid (FaceOccluder.boundaryVertices cam landmarks)]).length
      = (FaceOccluder.boundaryVertices cam landmarks).length + 1 := by
  refine ⟨?_, ?_, ?_⟩
  · unfold FaceOccluder.updateFace
    dsimp only
    rw [if_neg (by simp [hne]), FaceOccluder.flatTriples_specCenterFan]
  · unfold FaceOccluder.specCenterFanTriangles
    simp
  · simp

/-- C3 witness: a single-landmark input (only landmark index 0 is in range)
produces one boundary vertex, the appended centroid, and one triangle. -/
theorem C3_center_fan_triangulation_witness :
    FaceOccluder.updateFace ⟨60, 4 / 3⟩ [⟨0.5, 0.5, 0⟩] = some
      { vertices := FaceOccluder.boundaryVertices ⟨60, 4 / 3⟩ [⟨0.5, 0.5, 0⟩] ++
          [FaceOccluder.centroid (FaceOccluder.boundaryVertices ⟨60, 4 / 3⟩ [⟨0.5, 0.5, 0⟩])]
        indices := FaceOccluder.flatTriples (FaceOccluder.specCenterFanTriangles
          (FaceOccluder.boundaryVertices ⟨60, 4 / 3⟩ [⟨0.5, 0.5, 0⟩]).length) } :=
  (C3_center_fan_triangulation ⟨60, 4 / 3⟩ [⟨0.5, 0.5, 0⟩] (by simp)).1

theorem MindAR.avgQuatLoop_eq_foldl (hist : List Quat) :
    ∀ j acc, MindAR.avgQuatLoop hist j acc
      = (List.enumFrom j (hist.drop j)).foldl
          (fun a p => a.slerp p.2 (1 / ((p.1 : ℝ) + 1))) acc := by
  suffices H : ∀ k j acc, hist.length ≤ j + k →
      MindAR.avgQuatLoop hist j acc
        = (List.enumFrom j (hist.drop j)).foldl
            (fun a p => a.slerp p.2 (1 / ((p.1 : ℝ) + 1))) acc by
    intro j acc
    exact H hist.length j acc (by omega)
  intro k
  induction k with
  | zero =>
    intro j acc hle
    rw [MindAR.avgQuatLoop]
    rw [dif_neg (by omega), List.drop_eq_nil_of_le (by omega)]
    rfl
  | succ k ih =>
    intro j acc hle
    rw [MindAR.avgQuatLoop]
    by_cases hj : j < hist.length
    · rw [dif_pos hj, ih (j + 1) _ (by omega), List.drop_eq_getElem_cons hj]
      rw [List.enumFrom_cons, List.foldl_cons, List.getD_eq_getElem hist Quat.identity hj]
    · rw [dif_neg hj, List.drop_eq_nil_of_le (by omega)]
      rfl

/-- C7: the rolling-average orientation computed by the filter is exactly
the order-dependent sequential fold the spec describes: start from the
oldest quaternion and slerp the accumulator toward the entry at index i
with weight 1/(i+1), for i = 1 upward. -/
theorem C7_sequential_slerp_average (hist : List Quat) (hne : hist ≠ []) :
    MindAR.avgQuaternion hist = MindAR.specSequentialSlerpAverage hist := by
  obtain ⟨q0, rest, rfl⟩ := List.exists_cons_of_ne_nil hne
  rw [MindAR.avgQuaternion, MindAR.avgQuatLoop_eq_foldl]
  rfl

/-- C7 witness: a concrete two-entry history realizes the fold. -/
theorem C7_sequential_slerp_average_witness :
    MindAR.avgQuaternion [Quat.identity, ⟨1, 0, 0, 0⟩]
      = MindAR.specSequentialSlerpAverage [Quat.identity, ⟨1, 0, 0, 0⟩] :=
  C7_sequential_slerp_average [Quat.identity, ⟨1, 0, 0, 0⟩] (by simp)

/-- C1: evaluation of the filter at the failing input. From the start state,
one raw sample at (1,0,0) makes the velocity vector get clamped to magnitude
exactly maxVelocity (direction preserved), but the clamped vector is never
fed into the stage-5 smoothing: the lerp targets the unclamped rolling
average, so the stabilized position moves by 0.15 in this single frame,
far more than maxVelocity times the smoothing factor (0.015). The claimed
bound on the single-frame correction is violated, contradicting the
tracker's own velocity-capping documentation. -/
theorem C1_velocity_clamp_dead_store :
    (MindAR.frameStep (MindAR.initialState V3.zero Quat.identity) ⟨1, 0, 0⟩
        Quat.identity).velocity = (⟨0.1, 0, 0⟩ : V3) ∧
    V3.length (⟨0.1, 0, 0⟩ : V3) = MindAR.maxVelocity ∧
    (MindAR.frameStep (MindAR.initialState V3.zero Quat.identity) ⟨1, 0, 0⟩
        Quat.identity).smoothedPosition = (⟨0.15, 0, 0⟩ : V3) ∧
    V3.distanceTo (⟨0.15, 0, 0⟩ : V3)
      (MindAR.initialState V3.zero Quat.identity).smoothedPosition = 0.15 ∧
    MindAR.maxVelocity * MindAR.smoothingFactor < 0.15 := by
  have havg : MindAR.avgPosition (MindAR.evictIfOver [(⟨1, 0, 0⟩ : V3)]) = (⟨1, 0, 0⟩ : V3) := by
    simp [MindAR.avgPosition, MindAR.evictIfOver, MindAR.historySize, V3.add, V3.zero,
      V3.divideScalar, V3.multiplyScalar]
  have hgate : ¬ (V3.distanceTo V3.zero (⟨1, 0, 0⟩ : V3) < MindAR.movementThreshold) := by
    have hd : V3.distanceTo V3.zero (⟨1, 0, 0⟩ : V3) = 1 := by
      unfold V3.distanceTo V3.sub V3.zero
      rw [show (⟨(0 : ℝ) - 1, (0 : ℝ) - 0, (0 : ℝ) - 0⟩ : V3) = ⟨-1, 0, 0⟩ by norm_num,
        V3.length_mk_x]
      norm_num
    rw [hd]
    norm_num [MindAR.movementThreshold]
  have hsub : V3.sub (⟨1, 0, 0⟩ : V3) V3.zero = (⟨1, 0, 0⟩ : V3) := by
    simp [V3.sub, V3.zero]
  have hlen1 : V3.length (⟨1, 0, 0⟩ : V3) = 1 := by
    rw [V3.length_mk_x]
    norm_num
  have hnorm : V3.normalize (⟨1, 0, 0⟩ : V3) = (⟨1, 0, 0⟩ : V3) := by
    unfold V3.normalize
    rw [hlen1, if_neg (by norm_num)]
    simp [V3.divideScalar, V3.multiplyScalar]
  refine ⟨?_, ?_, ?_, ?_, by norm_num [MindAR.maxVelocity, MindAR.smoothingFactor]⟩
  · unfold MindAR.frameStep MindAR.initialState
    dsimp only
    simp only [List.nil_append]
    rw [havg, if_neg hgate]
    dsimp only
    rw [hsub, hlen1, if_pos (by norm_num [MindAR.maxVelocity]), hnorm]
    simp [V3.multiplyScalar, MindAR.maxVelocity]
  · rw [V3.length_mk_x]
    norm_num [MindAR.maxVelocity]
  · unfold MindAR.frameStep MindAR.initialState
    dsimp only
    simp only [List.nil_append]
    rw [havg, if_neg hgate]
    dsimp only
    simp [V3.lerp, V3.zero, MindAR.smoothingFactor]
  · unfold MindAR.initialState
    dsimp only
    unfold V3.distanceTo V3.sub V3.zero
    rw [show (⟨(0.15 : ℝ) - 0, (0 : ℝ) - 0, (0 : ℝ) - 0⟩ : V3) = ⟨0.15, 0, 0⟩ by norm_num,
      V3.length_mk_x]
    norm_num

theorem MindAR.frameStep_positionHistory (st : MindAR.FilterState) (rawP : V3) (rawQ : Quat) :
    (MindAR.frameStep st rawP rawQ).positionHistory
      = MindAR.evictIfOver (st.positionHistory ++ [rawP]) := by
  unfold MindAR.frameStep
  dsimp only
  split_ifs <;> rfl

theorem MindAR.evictIfOver_replicate_push (p : V3) (n : ℕ) :
    MindAR.evictIfOver (List.replicate (min n MindAR.historySize) p ++ [p])
      = List.replicate (min (n + 1) MindAR.historySize) p := by
  rw [← List.replicate_succ']
  unfold MindAR.evictIfOver MindAR.historySize
  rcases le_or_lt 5 n with h | h
  · have hm : min n 5 = 5 := by omega
    have hm2 : min (n + 1) 5 = 5 := by omega
    rw [hm, hm2, if_pos (by simp), List.replicate_succ, List.tail_cons]
  · have hm : min n 5 = n := by omega
    have hm2 : min (n + 1) 5 = n + 1 := by omega
    rw [hm, hm2, if_neg (by simp; omega)]

theorem MindAR.foldl_add_replicate (p : V3) :
    ∀ (k : ℕ) (acc : V3), (List.replicate k p).foldl V3.add acc
      = ⟨acc.x + k * p.x, acc.y + k * p.y, acc.z + k * p.z⟩ := by
  intro k
  induction k with
  | zero =>
    intro acc
    ext <;> simp
  | succ k ih =>
    intro acc
    rw [List.replicate_succ, List.foldl_cons, ih]
    ext <;> (simp [V3.add]; ring)

theorem MindAR.avgPosition_replicate (p : V3) (k : ℕ) (hk : 1 ≤ k) :
    MindAR.avgPosition (List.replicate k p) = p := by
  unfold MindAR.avgPosition
  rw [MindAR.foldl_add_replicate, List.length_replicate]
  have hk0 : (k : ℝ) ≠ 0 := by positivity
  unfold V3.divideScalar V3.multiplyScalar
  ext <;> (dsimp only; field_simp; simp [V3.zero]; try ring)

theorem MindAR.frameStep_smoothed_of_avg (st : MindAR.FilterState) (p : V3) (rawQ : Quat)
    (havg : MindAR.avgPosition (MindAR.evictIfOver (st.positionHistory ++ [p])) = p) :
    (MindAR.frameStep st p rawQ).smoothedPosition
      = if V3.distanceTo st.smoothedPosition p < MindAR.movementThreshold then
          st.smoothedPosition
        else V3.lerp st.smoothedPosition p MindAR.smoothingFactor := by
  unfold MindAR.frameStep
  dsimp only
  rw [havg]
  split_ifs <;> rfl

/-- C6: feeding the filter the same raw position p every frame from the
start state, the rolling history is exactly historySize copies of p from
frame historySize on (so the rolling average equals p exactly), the
distance from the stabilized position to p never increases (monotone
approach, no overshoot), and for every tolerance at least the dead-zone
threshold the stabilized position eventually stays within it. -/
theorem C6_static_input_convergence (s0 : V3) (q0 : Quat) (p : V3) (q : Quat) (eps : ℝ)
    (heps : MindAR.movementThreshold ≤ eps) :
    (∀ n, MindAR.historySize ≤ n →
      (MindAR.runSeq (MindAR.initialState s0 q0) (fun _ => p) (fun _ => q) n).positionHistory
        = List.replicate MindAR.historySize p ∧
      MindAR.avgPosition
        ((MindAR.runSeq (MindAR.initialState s0 q0) (fun _ => p) (fun _ => q) n).positionHistory)
        = p) ∧
    (∀ n, V3.distanceTo
        ((MindAR.runSeq (MindAR.initialState s0 q0) (fun _ => p)
          (fun _ => q) (n + 1)).smoothedPosition) p
      ≤ V3.distanceTo
        ((MindAR.runSeq (MindAR.initialState s0 q0) (fun _ => p)
          (fun _ => q) n).smoothedPosition) p) ∧
    (∃ N, ∀ n, N ≤ n → V3.distanceTo
        ((MindAR.runSeq (MindAR.initialState s0 q0) (fun _ => p)
          (fun _ => q) n).smoothedPosition) p < eps) := by
  set run := MindAR.runSeq (MindAR.initialState s0 q0) (fun _ => p) (fun _ => q) with hrun
  have hhist : ∀ n, (run n).positionHistory = List.replicate (min n MindAR.historySize) p := by
    intro n
    induction n with
    | zero => simp [hrun, MindAR.runSeq, MindAR.initialState]
    | succ n ih =>
      have hs : run (n + 1) = MindAR.frameStep (run n) p q := rfl
      rw [hs, MindAR.frameStep_positionHistory, ih, MindAR.evictIfOver_replicate_push]
  have havgn : ∀ n, MindAR.avgPosition
      (MindAR.evictIfOver ((run n).positionHistory ++ [p])) = p := by
    intro n
    rw [hhist n, MindAR.evictIfOver_replicate_push]
    refine MindAR.avgPosition_replicate p _ ?_
    rw [show MindAR.historySize = 5 from rfl]
    omega
  have habs : |1 - MindAR.smoothingFactor| = 0.85 := by
    rw [show (1 : ℝ) - MindAR.smoothingFactor = 0.85 by norm_num [MindAR.smoothingFactor],
      abs_of_nonneg (by norm_num : (0 : ℝ) ≤ 0.85)]
  have hd : ∀ n, V3.distanceTo ((run (n + 1)).smoothedPosition) p
      = if V3.distanceTo ((run n).smoothedPosition) p < MindAR.movementThreshold
        then V3.distanceTo ((run n).smoothedPosition) p
        else 0.85 * V3.distanceTo ((run n).smoothedPosition) p := by
    intro n
    have hs : run (n + 1) = MindAR.frameStep (run n) p q := rfl
    rw [hs, MindAR.frameStep_smoothed_of_avg _ _ _ (havgn n)]
    split_ifs with h
    · rfl
    · rw [V3.distanceTo_lerp, habs]
  have hnonneg : ∀ n, 0 ≤ V3.distanceTo ((run n).smoothedPosition) p :=
    fun n => V3.length_nonneg _
  have hθ : (0 : ℝ) < MindAR.movementThreshold := by
    norm_num [MindAR.movementThreshold]
  refine ⟨?_, ?_, ?_⟩
  · intro n hn
    have hm : min n MindAR.historySize = MindAR.historySize := by omega
    have h1 : (run n).positionHistory = List.replicate MindAR.historySize p := by
      rw [hhist n, hm]
    refine ⟨h1, ?_⟩
    rw [h1]
    refine MindAR.avgPosition_replicate p _ ?_
    rw [show MindAR.historySize = 5 from rfl]
    omega
  · intro n
    rw [hd n]
    split_ifs with h
    · exact le_refl _
    · nlinarith [hnonneg n]
  · have hS1 : ∀ n, V3.distanceTo ((run n).smoothedPosition) p < MindAR.movementThreshold ∨
        V3.distanceTo ((run n).smoothedPosition) p
          ≤ (0.85 : ℝ) ^ n * V3.distanceTo ((run 0).smoothedPosition) p := by
      intro n
      induction n with
      | zero => right; simp
      | succ n ih =>
        by_cases hlt : V3.distanceTo ((run n).smoothedPosition) p < MindAR.movementThreshold
        · left
          rw [hd n, if_pos hlt]
          exact hlt
        · right
          rw [hd n, if_neg hlt]
          rcases ih with h | h
          · exact absurd h hlt
          · calc (0.85 : ℝ) * V3.distanceTo ((run n).smoothedPosition) p
                ≤ 0.85 * ((0.85 : ℝ) ^ n * V3.distanceTo ((run 0).smoothedPosition) p) := by
                  nlinarith
              _ = (0.85 : ℝ) ^ (n + 1) * V3.distanceTo ((run 0).smoothedPosition) p := by
                  ring
    have hS2 : ∃ N, (0.85 : ℝ) ^ N * V3.distanceTo ((run 0).smoothedPosition) p
        < MindAR.movementThreshold := by
      obtain ⟨N, hN⟩ := exists_pow_lt_of_lt_one
        (div_pos hθ (by nlinarith [hnonneg 0] :
          (0 : ℝ) < V3.distanceTo ((run 0).smoothedPosition) p + 1))
        (by norm_num : (0.85 : ℝ) < 1)
      refine ⟨N, ?_⟩
      have h1 : (0.85 : ℝ) ^ N * (V3.distanceTo ((run 0).smoothedPosition) p + 1)
          < MindAR.movementThreshold :=
        (lt_div_iff₀ (by nlinarith [hnonneg 0])).mp hN
      nlinarith [pow_nonneg (by norm_num : (0 : ℝ) ≤ (0.85 : ℝ)) N, hnonneg 0]
    obtain ⟨N, hN⟩ := hS2
    have hNlt : V3.distanceTo ((run N).smoothedPosition) p < MindAR.movementThreshold := by
      rcases hS1 N with h | h
      · exact h
      · exact lt_of_le_of_lt h hN
    refine ⟨N, ?_⟩
    intro n hn
    have hstay : V3.distanceTo ((run n).smoothedPosition) p < MindAR.movementThreshold := by
      induction n, hn using Nat.le_induction with
      | base => exact hNlt
      | succ n hn ih =>
        rw [hd n, if_pos ih]
        exact ih
    exact lt_of_lt_of_le hstay heps

/-- C6 witness: with a constant input at (1,0,0) from the start state, the
history is full of that position after historySize frames and the very first
step already does not move the stabilized position away from it. -/
theorem C6_static_input_convergence_witness :
    MindAR.movementThreshold ≤ (0.001 : ℝ) ∧
    (MindAR.runSeq (MindAR.initialState V3.zero Quat.identity) (fun _ => ⟨1, 0, 0⟩)
        (fun _ => Quat.identity) 5).positionHistory
      = List.replicate MindAR.historySize ⟨1, 0, 0⟩ ∧
    V3.distanceTo
        ((MindAR.runSeq (MindAR.initialState V3.zero Quat.identity) (fun _ => ⟨1, 0, 0⟩)
          (fun _ => Quat.identity) 1).smoothedPosition) ⟨1, 0, 0⟩
      ≤ V3.distanceTo
        ((MindAR.runSeq (MindAR.initialState V3.zero Quat.identity) (fun _ => ⟨1, 0, 0⟩)
          (fun _ => Quat.identity) 0).smoothedPosition) ⟨1, 0, 0⟩ := by
  have hle : MindAR.movementThreshold ≤ (0.001 : ℝ) := by
    norm_num [MindAR.movementThreshold]
  have h := C6_static_input_convergence V3.zero Quat.identity ⟨1, 0, 0⟩ Quat.identity 0.001 hle
  exact ⟨hle, (h.1 5 (by rw [show MindAR.historySize = 5 from rfl])).1, h.2.1 0⟩

theorem Quat.zero_le_lengthSq (a : Quat) : 0 ≤ a.lengthSq := by
  unfold Quat.lengthSq
  nlinarith [mul_self_nonneg a.x, mul_self_nonneg a.y, mul_self_nonneg a.z,
    mul_self_nonneg a.w]

theorem Quat.lengthSq_normalize (a : Quat) : (a.normalize).lengthSq = 1 := by
  unfold Quat.normalize
  split_ifs with h
  · unfold Quat.lengthSq
    norm_num
  · have hS : 0 ≤ a.lengthSq := Quat.zero_le_lengthSq a
    have hl : a.length ^ 2 = a.lengthSq := Real.sq_sqrt hS
    have hl0 : a.length ≠ 0 := h
    have hS0 : a.lengthSq ≠ 0 := by
      intro h0
      apply hl0
      unfold Quat.length
      rw [h0, Real.sqrt_zero]
    have key : Quat.lengthSq ⟨a.x * (1 / a.length), a.y * (1 / a.length),
        a.z * (1 / a.length), a.w * (1 / a.length)⟩
        = a.lengthSq * (a.length ^ 2)⁻¹ := by
      unfold Quat.lengthSq
      dsimp only
      ring
    rw [key, hl]
    exact mul_inv_cancel₀ hS0

theorem sin_sq_add_fan (a b : ℝ) :
    Real.sin a ^ 2 + 2 * Real.sin a * Real.sin b * Real.cos (a + b) + Real.sin b ^ 2
      = Real.sin (a + b) ^ 2 := by
  rw [Real.sin_add, Real.cos_add]
  nlinarith [Real.sin_sq_add_cos_sq a, Real.sin_sq_add_cos_sq b]

theorem slerp_ratio_identity (cHT t : ℝ) (hs : 0 < 1 - cHT * cHT) :
    (Real.sin ((1 - t) * atan2 (Real.sqrt (1 - cHT * cHT)) cHT)
        / Real.sqrt (1 - cHT * cHT)) ^ 2
      + 2 * (Real.sin ((1 - t) * atan2 (Real.sqrt (1 - cHT * cHT)) cHT)
        / Real.sqrt (1 - cHT * cHT))
        * (Real.sin (t * atan2 (Real.sqrt (1 - cHT * cHT)) cHT)
        / Real.sqrt (1 - cHT * cHT)) * cHT
      + (Real.sin (t * atan2 (Real.sqrt (1 - cHT * cHT)) cHT)
        / Real.sqrt (1 - cHT * cHT)) ^ 2 = 1 := by
  set s := Real.sqrt (1 - cHT * cHT) with hsdef
  set θ := atan2 s cHT with hθdef
  have hs0 : 0 < s := Real.sqrt_pos.mpr hs
  have hss : s ^ 2 = 1 - cHT * cHT := Real.sq_sqrt hs.le
  have habs : Complex.abs ⟨cHT, s⟩ = 1 := by
    rw [Complex.abs_apply, Complex.normSq_mk,
      show cHT * cHT + s * s = 1 by nlinarith [hss]]
    exact Real.sqrt_one
  have hz : (⟨cHT, s⟩ : ℂ) ≠ 0 := by
    intro hzz
    have him : s = 0 := by simpa using congrArg Complex.im hzz
    linarith
  have hcos : Real.cos θ = cHT := by
    rw [hθdef]
    unfold atan2
    rw [Complex.cos_arg hz, habs]
    simp
  have hsin : Real.sin θ = s := by
    rw [hθdef]
    unfold atan2
    rw [Complex.sin_arg, habs]
    simp
  have key := sin_sq_add_fan ((1 - t) * θ) (t * θ)
  rw [show (1 - t) * θ + t * θ = θ by ring, hcos, hsin] at key
  have hs2 : s ^ 2 ≠ 0 := by positivity
  have hgoal : (Real.sin ((1 - t) * θ) / s) ^ 2
      + 2 * (Real.sin ((1 - t) * θ) / s) * (Real.sin (t * θ) / s) * cHT
      + (Real.sin (t * θ) / s) ^ 2
      = (Real.sin ((1 - t) * θ) ^ 2
        + 2 * Real.sin ((1 - t) * θ) * Real.sin (t * θ) * cHT
        + Real.sin (t * θ) ^ 2) / s ^ 2 := by
    field_simp
    ring
  rw [hgoal, key, div_self hs2]

theorem slerp_core_lengthSq (q q2 : Quat) (t cHT : ℝ)
    (hq : q.lengthSq = 1) (hq2 : q2.lengthSq = 1) (hdot : q.dot q2 = cHT)
    (hs : 0 < 1 - cHT * cHT) :
    Quat.lengthSq
      ⟨q.x * (Real.sin ((1 - t) * atan2 (Real.sqrt (1 - cHT * cHT)) cHT)
          / Real.sqrt (1 - cHT * cHT))
        + q2.x * (Real.sin (t * atan2 (Real.sqrt (1 - cHT * cHT)) cHT)
          / Real.sqrt (1 - cHT * cHT)),
       q.y * (Real.sin ((1 - t) * atan2 (Real.sqrt (1 - cHT * cHT)) cHT)
          / Real.sqrt (1 - cHT * cHT))
        + q2.y * (Real.sin (t * atan2 (Real.sqrt (1 - cHT * cHT)) cHT)
          / Real.sqrt (1 - cHT * cHT)),
       q.z * (Real.sin ((1 - t) * atan2 (Real.sqrt (1 - cHT * cHT)) cHT)
          / Real.sqrt (1 - cHT * cHT))
        + q2.z * (Real.sin (t * atan2 (Real.sqrt (1 - cHT * cHT)) cHT)
          / Real.sqrt (1 - cHT * cHT)),
       q.w * (Real.sin ((1 - t) * atan2 (Real.sqrt (1 - cHT * cHT)) cHT)
          / Real.sqrt (1 - cHT * cHT))
        + q2.w * (Real.sin (t * atan2 (Real.sqrt (1 - cHT * cHT)) cHT)
          / Real.sqrt (1 - cHT * cHT))⟩ = 1 := by
  have hiden := slerp_ratio_identity cHT t hs
  set A := Real.sin ((1 - t) * atan2 (Real.sqrt (1 - cHT * cHT)) cHT)
    / Real.sqrt (1 - cHT * cHT) with hA
  set B := Real.sin (t * atan2 (Real.sqrt (1 - cHT * cHT)) cHT)
    / Real.sqrt (1 - cHT * cHT) with hB
  unfold Quat.lengthSq
  unfold Quat.lengthSq at hq hq2
  unfold Quat.dot at hdot
  dsimp only
  linear_combination A ^ 2 * hq + B ^ 2 * hq2 + 2 * A * B * hdot + hiden

theorem Quat.lengthSq_slerp (q qb : Quat) (t : ℝ)
    (hq : q.lengthSq = 1) (hqb : qb.lengthSq = 1) :
    (Quat.slerp q qb t).lengthSq = 1 := by
  unfold Quat.slerp
  by_cases ht0 : t = 0
  · rw [if_pos ht0]; exact hq
  rw [if_neg ht0]
  by_cases ht1 : t = 1
  · rw [if_pos ht1]; exact hqb
  rw [if_neg ht1]
  dsimp only
  set q2e : Quat := (if q.dot qb < 0 then (⟨-qb.x, -qb.y, -qb.z, -qb.w⟩ : Quat) else qb)
    with hq2e
  set cHTe : ℝ := (if q.dot qb < 0 then -(q.dot qb) else q.dot qb) with hcHTe
  by_cases hc1 : 1 ≤ cHTe
  · rw [if_pos hc1]; exact hq
  rw [if_neg hc1]
  by_cases heps : 1 - cHTe * cHTe ≤ numberEpsilon
  · rw [if_pos heps]
    exact Quat.lengthSq_normalize _
  rw [if_neg heps]
  have hq2 : q2e.lengthSq = 1 := by
    rw [hq2e]
    split_ifs
    · unfold Quat.lengthSq at hqb ⊢
      dsimp only
      linear_combination hqb
    · exact hqb
  have hdot : q.dot q2e = cHTe := by
    rw [hq2e, hcHTe]
    split_ifs
    · unfold Quat.dot
      dsimp only
      ring
    · rfl
  have hepspos : 0 < numberEpsilon := by
    unfold numberEpsilon
    positivity
  have hs : 0 < 1 - cHTe * cHTe := by
    push_neg at heps
    linarith
  exact slerp_core_lengthSq q q2e t cHTe hq hq2 hdot hs

theorem Quat.lengthSq_identity : Quat.identity.lengthSq = 1 := by
  unfold Quat.identity Quat.lengthSq
  norm_num

theorem MindAR.avgQuatLoop_lengthSq (hist : List Quat)
    (hall : ∀ r ∈ hist, Quat.lengthSq r = 1) :
    ∀ j acc, acc.lengthSq = 1 → (MindAR.avgQuatLoop hist j acc).lengthSq = 1 := by
  suffices H : ∀ k j acc, hist.length ≤ j + k → acc.lengthSq = 1 →
      (MindAR.avgQuatLoop hist j acc).lengthSq = 1 by
    intro j acc hacc
    exact H hist.length j acc (by omega) hacc
  intro k
  induction k with
  | zero =>
    intro j acc hle hacc
    rw [MindAR.avgQuatLoop, dif_neg (by omega)]
    exact hacc
  | succ k ih =>
    intro j acc hle hacc
    rw [MindAR.avgQuatLoop]
    by_cases hj : j < hist.length
    · rw [dif_pos hj]
      refine ih (j + 1) _ (by omega) ?_
      refine Quat.lengthSq_slerp _ _ _ hacc ?_
      rw [List.getD_eq_getElem hist Quat.identity hj]
      exact hall _ (List.getElem_mem hj)
    · rw [dif_neg hj]
      exact hacc

theorem MindAR.avgQuaternion_lengthSq (hist : List Quat)
    (hall : ∀ r ∈ hist, Quat.lengthSq r = 1) :
    (MindAR.avgQuaternion hist).lengthSq = 1 := by
  unfold MindAR.avgQuaternion
  refine MindAR.avgQuatLoop_lengthSq hist hall 1 _ ?_
  cases hist with
  | nil => exact Quat.lengthSq_identity
  | cons a l => exact hall a (by simp)

theorem MindAR.frameStep_quaternionHistory (st : MindAR.FilterState) (rawP : V3)
    (rawQ : Quat) :
    (MindAR.frameStep st rawP rawQ).quaternionHistory
      = (if MindAR.historySize < (st.positionHistory ++ [rawP]).length then
          (st.quaternionHistory ++ [rawQ]).tail
        else st.quaternionHistory ++ [rawQ]) := by
  unfold MindAR.frameStep
  dsimp only
  split_ifs <;> rfl

theorem MindAR.frameStep_quat_invariant (st : MindAR.FilterState) (rawP : V3) (rawQ : Quat)
    (hsm : st.smoothedQuaternion.lengthSq = 1)
    (hall : ∀ r ∈ st.quaternionHistory, Quat.lengthSq r = 1)
    (hraw : rawQ.lengthSq = 1) :
    (MindAR.frameStep st rawP rawQ).smoothedQuaternion.lengthSq = 1 ∧
    (∀ r ∈ (MindAR.frameStep st rawP rawQ).quaternionHistory, Quat.lengthSq r = 1) := by
  have hall2 : ∀ r ∈ (if MindAR.historySize < (st.positionHistory ++ [rawP]).length then
      (st.quaternionHistory ++ [rawQ]).tail
    else st.quaternionHistory ++ [rawQ]), Quat.lengthSq r = 1 := by
    intro r hr
    have hr2 : r ∈ st.quaternionHistory ++ [rawQ] := by
      split_ifs at hr with h
      · exact List.mem_of_mem_tail hr
      · exact hr
    rcases List.mem_append.mp hr2 with h | h
    · exact hall r h
    · rw [show r = rawQ by simpa using h]
      exact hraw
  have hhist := MindAR.frameStep_quaternionHistory st rawP rawQ
  by_cases hgate : V3.distanceTo st.smoothedPosition
      (MindAR.avgPosition (MindAR.evictIfOver (st.positionHistory ++ [rawP])))
      < MindAR.movementThreshold
  · have h1 : (MindAR.frameStep st rawP rawQ).smoothedQuaternion
        = st.smoothedQuaternion := by
      unfold MindAR.frameStep
      dsimp only
      rw [if_pos hgate]
    rw [h1, hhist]
    exact ⟨hsm, hall2⟩
  · have h1 : (MindAR.frameStep st rawP rawQ).smoothedQuaternion
        = Quat.slerp st.smoothedQuaternion
            (MindAR.avgQuaternion
              (if MindAR.historySize < (st.positionHistory ++ [rawP]).length then
                (st.quaternionHistory ++ [rawQ]).tail
              else st.quaternionHistory ++ [rawQ]))
            MindAR.smoothingFactor := by
      unfold MindAR.frameStep
      dsimp only
      rw [if_neg hgate]
    rw [h1, hhist]
    exact ⟨Quat.lengthSq_slerp _ _ _ hsm (MindAR.avgQuaternion_lengthSq _ hall2), hall2⟩

/-- C8: starting from a unit stabilized quaternion (and any unit entries in
the quaternion history) and feeding unit-quaternion raw samples, the
stabilized orientation has norm exactly 1 after every update: every
spherical interpolation in the pipeline maps unit quaternions to unit
quaternions (with an explicit renormalization in the near-parallel fallback
branch of slerp). -/
theorem C8_stabilized_orientation_unit (st0 : MindAR.FilterState) (ps : ℕ → V3)
    (qs : ℕ → Quat)
    (hsm : st0.smoothedQuaternion.lengthSq = 1)
    (hhist : ∀ r ∈ st0.quaternionHistory, Quat.lengthSq r = 1)
    (hraw : ∀ n, (qs n).lengthSq = 1) :
    ∀ n, ((MindAR.runSeq st0 ps qs n).smoothedQuaternion).length = 1 := by
  have key : ∀ n, (MindAR.runSeq st0 ps qs n).smoothedQuaternion.lengthSq = 1 ∧
      (∀ r ∈ (MindAR.runSeq st0 ps qs n).quaternionHistory, Quat.lengthSq r = 1) := by
    intro n
    induction n with
    | zero => exact ⟨hsm, hhist⟩
    | succ n ih => exact MindAR.frameStep_quat_invariant _ _ _ ih.1 ih.2 (hraw n)
  intro n
  unfold Quat.length
  rw [(key n).1]
  exact Real.sqrt_one

/-- C8 witness: from the start state with the identity orientation and a
constant unit raw quaternion, the stabilized orientation still has norm 1
after one update. -/
theorem C8_stabilized_orientation_unit_witness :
    ((MindAR.runSeq (MindAR.initialState V3.zero Quat.identity) (fun _ => V3.zero)
      (fun _ => (⟨1, 0, 0, 0⟩ : Quat)) 1).smoothedQuaternion).length = 1 := by
  refine C8_stabilized_orientation_unit (MindAR.initialState V3.zero Quat.identity)
    (fun _ => V3.zero) (fun _ => (⟨1, 0, 0, 0⟩ : Quat)) ?_ ?_ ?_ 1
  · exact Quat.lengthSq_identity
  · intro r hr
    simp [MindAR.initialState] at hr
  · intro n
    unfold Quat.lengthSq
    norm_num
